import Mathlib

/-!
Shallow embedding of `src/find-exp-torch.py`, a ~40-line gradient-descent
script that estimates an exponent from synthetic samples.  Tensors are
modelled as `List ℝ`, scalars as `ℝ`; the PyTorch reductions are translated
operation by operation.
-/

namespace FindExp

/-- Model of `(y - y_hat).pow(2).sum()`: elementwise difference, elementwise
square, then sum to a single scalar. -/
def sqDiffSum (y yhat : List ℝ) : ℝ :=
  (List.zipWith (fun a b => (a - b) ^ 2) y yhat).sum

/-- Model of `torch.mean` on a tensor, here applied to the 0-dim (single
value) tensor produced by `.sum()`: the sum of the entries divided by the
number of entries. -/
noncomputable def tmean (l : List ℝ) : ℝ := l.sum / l.length

/-- Translation of `rmse(y, y_hat)` from the source:
`torch.sqrt(torch.mean((y - y_hat).pow(2).sum()))`. -/
noncomputable def rmse (y yhat : List ℝ) : ℝ :=
  Real.sqrt (tmean [sqDiffSum y yhat])

/-- Translation of `forward(x, e)` from the source:
`x.pow(e.repeat(x.size(0)))` — the scalar exponent is repeated to the
length of `x` and the power is taken elementwise (real power `rpow`). -/
noncomputable def forward (x : List ℝ) (e : ℝ) : List ℝ :=
  List.zipWith (fun a b => a ^ b) x (List.replicate x.length e)

/-- Source constant `n = 100`, the number of examples. -/
def n : ℕ := 100

/-- Source constant `learning_rate = 5e-6`. -/
noncomputable def learning_rate : ℝ := 5e-6

/-- Source constant `target_exp = 2.0`. -/
noncomputable def target_exp : ℝ := 2

/-- Model of `torch.rand(n) * 10`, given the list `r` of raw draws of the
pseudo-random generator (each in `[0, 1)`): every draw is scaled by 10. -/
def genX (r : List ℝ) : List ℝ := r.map (fun a => a * 10)

/-- Modelled from the spec: `torch.rand` seeded is a deterministic function
of the seed; the generator itself is library code not in the repository, so
it is abstracted as an arbitrary function `rand` from seed and count to the
raw draws.  `genSamples rand seed` is the sample set of a run with that
seed: `torch.rand(n) * 10`. -/
def genSamples (rand : ℕ → ℕ → List ℝ) (seed : ℕ) : List ℝ :=
  genX (rand seed n)

/-- Modelled from the spec: the gradient computed by `loss.backward()` —
automatic differentiation of the composed forward+loss expression
`sqrt(Σ (y_i - x_i^e)^2)` with respect to the scalar estimate `e`
(PyTorch's autograd is library code not in the repository).  By the chain
rule this derivative is `-(Σ (y_i - x_i^e)·x_i^e·log x_i) / sqrt(Σ (y_i - x_i^e)^2)`. -/
noncomputable def gradLoss (x y : List ℝ) (e : ℝ) : ℝ :=
  -(List.zipWith (fun xi yi => (yi - xi ^ e) * (xi ^ e * Real.log xi)) x y).sum /
    Real.sqrt (sqDiffSum y (forward x e))

/-- The mutable state of the script: the sample tensor `x`, the target
tensor `y`, the trainable scalar `exp_hat` with its gradient accumulator,
and the two history buffers. -/
structure TState where
  x : List ℝ
  y : List ℝ
  exp_hat : ℝ
  grad : ℝ
  loss_history : List ℝ
  exp_history : List ℝ

/-- One iteration of the training loop, translated line by line:
`y_hat = forward(x, exp_hat)`; `loss = rmse(y, y_hat)`;
`loss_history.append(loss.data[0])`; `exp_history.append(y_hat.data[0])`
(the source appends the first element of the prediction `y_hat`, not the
estimate); `loss.backward()` accumulates the gradient into `exp_hat.grad`;
`exp_hat.data -= learning_rate * exp_hat.grad.data`;
`exp_hat.grad.data.zero_()`. -/
noncomputable def step (s : TState) : TState :=
  let y_hat := forward s.x s.exp_hat
  let loss := rmse s.y y_hat
  let grad := s.grad + gradLoss s.x s.y s.exp_hat
  { s with
    loss_history := s.loss_history ++ [loss]
    exp_history := s.exp_history ++ [y_hat.headI]
    exp_hat := s.exp_hat - learning_rate * grad
    grad := 0 }

/-- The state right before the loop: `x` the generated samples,
`y = forward(x, exp)` with `exp = target_exp`, `exp_hat = 4.0`, empty
gradient accumulator and empty history buffers. -/
noncomputable def initState (x : List ℝ) : TState :=
  { x := x
    y := forward x target_exp
    exp_hat := 4
    grad := 0
    loss_history := []
    exp_history := [] }

/-- State after `k` iterations of the training loop. -/
noncomputable def run (s : TState) : ℕ → TState
  | 0 => s
  | k + 1 => step (run s k)

/-- The whole program on sample set `x`: `for i in range(0, 200)` applies
`step` exactly 200 times, unconditionally. -/
noncomputable def programRun (x : List ℝ) : TState :=
  run (initState x) 200

/- ### Basic lemmas about the embedding -/

lemma tmean_single (s : ℝ) : tmean [s] = s := by
  simp [tmean]

lemma rmse_eq_sqrt_sqDiffSum (y yhat : List ℝ) :
    rmse y yhat = Real.sqrt (sqDiffSum y yhat) := by
  rw [rmse, tmean_single]

lemma forward_eq_map (x : List ℝ) (e : ℝ) :
    forward x e = x.map (fun a => a ^ e) := by
  induction x with
  | nil => rfl
  | cons a t ih =>
      simp only [forward, List.length_cons, List.replicate_succ,
        List.zipWith_cons_cons, List.map_cons] at *
      exact congrArg _ ih

lemma forward_length (x : List ℝ) (e : ℝ) :
    (forward x e).length = x.length := by
  rw [forward_eq_map]; exact List.length_map x _

lemma step_x (s : TState) : (step s).x = s.x := rfl

lemma step_y (s : TState) : (step s).y = s.y := rfl

lemma run_x (s : TState) (k : ℕ) : (run s k).x = s.x := by
  induction k with
  | zero => rfl
  | succ k ih => rw [run, step_x, ih]

lemma run_y (s : TState) (k : ℕ) : (run s k).y = s.y := by
  induction k with
  | zero => rfl
  | succ k ih => rw [run, step_y, ih]

lemma step_loss_history (s : TState) :
    (step s).loss_history =
      s.loss_history ++ [rmse s.y (forward s.x s.exp_hat)] := rfl

lemma step_exp_history (s : TState) :
    (step s).exp_history =
      s.exp_history ++ [(forward s.x s.exp_hat).headI] := rfl

lemma step_grad (s : TState) : (step s).grad = 0 := rfl

lemma step_exp_hat (s : TState) :
    (step s).exp_hat =
      s.exp_hat - learning_rate * (s.grad + gradLoss s.x s.y s.exp_hat) := rfl

lemma run_loss_history (s : TState) (k : ℕ) :
    (run s k).loss_history =
      s.loss_history ++
        (List.range k).map
          (fun i => rmse s.y (forward s.x ((run s i).exp_hat))) := by
  induction k with
  | zero => simp [run]
  | succ k ih =>
      rw [run, step_loss_history, ih, run_x, run_y, List.range_succ,
        List.map_append, List.append_assoc]
      rfl

lemma sqDiffSum_nonneg (y yhat : List ℝ) : 0 ≤ sqDiffSum y yhat := by
  induction y generalizing yhat with
  | nil => simp [sqDiffSum]
  | cons a t ih =>
      cases yhat with
      | nil => simp [sqDiffSum]
      | cons b u =>
          simp only [sqDiffSum, List.zipWith_cons_cons, List.sum_cons]
          have h1 : (0:ℝ) ≤ (a - b) ^ 2 := sq_nonneg _
          have h2 := ih u
          simp only [sqDiffSum] at h2
          linarith

lemma sqDiffSum_eq_zero (y yhat : List ℝ) (hlen : y.length = yhat.length)
    (h : sqDiffSum y yhat = 0) : y = yhat := by
  induction y generalizing yhat with
  | nil =>
      cases yhat with
      | nil => rfl
      | cons b u => simp at hlen
  | cons a t ih =>
      cases yhat with
      | nil => simp at hlen
      | cons b u =>
          simp only [sqDiffSum, List.zipWith_cons_cons, List.sum_cons] at h
          have hrest : (0:ℝ) ≤ sqDiffSum t u := sqDiffSum_nonneg t u
          simp only [sqDiffSum] at hrest
          have hsq : (0:ℝ) ≤ (a - b) ^ 2 := sq_nonneg _
          have hab : (a - b) ^ 2 = 0 := by linarith
          have hab' : a = b := by
            have h0 := pow_eq_zero_iff (n := 2) (by norm_num) |>.mp hab
            linarith [sub_eq_zero.mp h0]
          have hlen' : t.length = u.length := by simpa using hlen
          have hrest0 : sqDiffSum t u = 0 := by
            simp only [sqDiffSum]; linarith
          rw [hab', ih u hlen' hrest0]

lemma forward_getD (x : List ℝ) (e : ℝ) (i : ℕ) (h : i < x.length) :
    (forward x e).getD i 0 = (x.getD i 0) ^ e := by
  rw [forward_eq_map]
  induction x generalizing i with
  | nil => simp at h
  | cons a t ih =>
      cases i with
      | zero => simp
      | succ j =>
          simp only [List.map_cons, List.getD_cons_succ]
          exact ih j (by simpa using h)

lemma forward_123_target : forward [1, 2, 3] target_exp = [1, 4, 9] := by
  rw [forward_eq_map, target_exp]
  simp only [List.map_cons, List.map_nil]
  rw [show (2:ℝ) = ((2:ℕ):ℝ) by norm_num]
  simp only [Real.rpow_natCast]
  norm_num

lemma forward_123_4 : forward [1, 2, 3] (4:ℝ) = [1, 16, 81] := by
  rw [forward_eq_map]
  simp only [List.map_cons, List.map_nil]
  rw [show (4:ℝ) = ((4:ℕ):ℝ) by norm_num]
  simp only [Real.rpow_natCast]
  norm_num

lemma forward_23_3 : forward [2, 3] (3:ℝ) = [8, 27] := by
  rw [forward_eq_map]
  simp only [List.map_cons, List.map_nil]
  rw [show (3:ℝ) = ((3:ℕ):ℝ) by norm_num]
  simp only [Real.rpow_natCast]
  norm_num

lemma forward_2_4 : forward [2] (4:ℝ) = [16] := by
  rw [forward_eq_map]
  simp only [List.map_cons, List.map_nil]
  rw [show (4:ℝ) = ((4:ℕ):ℝ) by norm_num]
  simp only [Real.rpow_natCast]
  norm_num

lemma run_exp_history (s : TState) (k : ℕ) :
    (run s k).exp_history =
      s.exp_history ++
        (List.range k).map
          (fun i => (forward s.x ((run s i).exp_hat)).headI) := by
  induction k with
  | zero => simp [run]
  | succ k ih =>
      rw [run, step_exp_history, ih, run_x, List.range_succ,
        List.map_append, List.append_assoc]
      rfl

/- ### Claim theorems -/

/-- C2: for every pair of predicted and target sequences, `rmse` returns the
square root of the total sum of squared element-wise differences (the sum is
collapsed to one scalar, the mean over that single value is the identity,
then the square root is taken); in particular for samples `[1, 2, 3]`,
estimate `4` and target exponent `2` it equals `sqrt 5328`. -/
theorem rmse_sqrt_total_squared_error :
    (∀ y yhat : List ℝ, rmse y yhat = Real.sqrt (sqDiffSum y yhat)) ∧
    rmse (forward [1, 2, 3] target_exp) (forward [1, 2, 3] 4) =
      Real.sqrt 5328 := by
  refine ⟨rmse_eq_sqrt_sqDiffSum, ?_⟩
  rw [forward_123_target, forward_123_4, rmse_eq_sqrt_sqDiffSum]
  norm_num [sqDiffSum]

/-- C3: `forward` returns the element-wise power — the output has the same
length as the input and `output[i] = input[i] ^ e` for every valid index;
in particular `forward [2, 3] 3 = [8, 27]`. -/
theorem forward_is_elementwise_pow :
    (∀ (x : List ℝ) (e : ℝ), (forward x e).length = x.length ∧
      ∀ i, i < x.length → (forward x e).getD i 0 = (x.getD i 0) ^ e) ∧
    forward [2, 3] 3 = [8, 27] :=
  ⟨fun x e => ⟨forward_length x e, fun i h => forward_getD x e i h⟩,
    forward_23_3⟩

/-- Witness for C3 at the concrete input `x = [2, 3]`, `e = 3`, `i = 1`. -/
theorem forward_is_elementwise_pow_witness :
    (forward [(2:ℝ), 3] 3).getD 1 0 = ([(2:ℝ), 3].getD 1 0) ^ (3:ℝ) :=
  (forward_is_elementwise_pow.1 [2, 3] 3).2 1 (by norm_num)

/-- C7: for equal-length sequences the `rmse` result is a non-negative
scalar, and it is zero only when the two sequences agree at every
element. -/
theorem rmse_nonneg_and_zero_only_at_match (y yhat : List ℝ)
    (h : y.length = yhat.length) :
    0 ≤ rmse y yhat ∧ (rmse y yhat = 0 → y = yhat) := by
  constructor
  · rw [rmse_eq_sqrt_sqDiffSum]; exact Real.sqrt_nonneg _
  · intro h0
    rw [rmse_eq_sqrt_sqDiffSum] at h0
    have hle : sqDiffSum y yhat ≤ 0 := Real.sqrt_eq_zero'.mp h0
    exact sqDiffSum_eq_zero y yhat h
      (le_antisymm hle (sqDiffSum_nonneg y yhat))

/-- Witness for C7 at the concrete pair `[1]`, `[1]`. -/
theorem rmse_nonneg_and_zero_only_at_match_witness :
    0 ≤ rmse [(1:ℝ)] [1] ∧ (rmse [(1:ℝ)] [1] = 0 → [(1:ℝ)] = [1]) :=
  rmse_nonneg_and_zero_only_at_match [1] [1] rfl

/-- C1 (bug evidence): on samples `[2]` the entry recorded into
`exp_history` at iteration 0 is `16` — the first element of the prediction
`y_hat = forward([2], 4)`, i.e. `2^4` — while the exponent estimate at
iteration 0 is `4`; the code records `y_hat.data[0]`, not the estimate. -/
theorem exp_history_records_prediction_not_estimate :
    (run (initState [2]) 1).exp_history = [(16:ℝ)] ∧
    (initState [2]).exp_hat = 4 ∧ ((16:ℝ) ≠ 4) := by
  refine ⟨?_, rfl, by norm_num⟩
  show (step (initState [2])).exp_history = [16]
  rw [step_exp_history]
  show [] ++ [(forward [2] 4).headI] = [16]
  rw [forward_2_4]
  rfl

/-- C4: one loop iteration, started with a cleared gradient accumulator,
updates the estimate exactly to `old − 5e-6 · gradient(old)`, appends the
loss computed from the pre-update estimate to the loss history, appends the
first predicted value to the parameter history, and leaves the gradient
accumulator reset to zero. -/
theorem step_iteration_order (s : TState) (h : s.grad = 0) :
    (step s).exp_hat = s.exp_hat - 5e-6 * gradLoss s.x s.y s.exp_hat ∧
    (step s).loss_history =
      s.loss_history ++ [rmse s.y (forward s.x s.exp_hat)] ∧
    (step s).exp_history =
      s.exp_history ++ [(forward s.x s.exp_hat).headI] ∧
    (step s).grad = 0 := by
  refine ⟨?_, step_loss_history s, step_exp_history s, step_grad s⟩
  rw [step_exp_hat, h, zero_add]
  simp only [learning_rate]

/-- Witness for C4 at the concrete state with `x = y = [1]`,
`exp_hat = 4`, cleared gradient and empty histories. -/
theorem step_iteration_order_witness :
    (step (⟨[1], [1], 4, 0, [], []⟩ : TState)).exp_hat =
      4 - 5e-6 * gradLoss [1] [1] 4 ∧
    (step (⟨[1], [1], 4, 0, [], []⟩ : TState)).loss_history =
      [] ++ [rmse [1] (forward [1] 4)] ∧
    (step (⟨[1], [1], 4, 0, [], []⟩ : TState)).exp_history =
      [] ++ [(forward [1] 4).headI] ∧
    (step (⟨[1], [1], 4, 0, [], []⟩ : TState)).grad = 0 :=
  step_iteration_order ⟨[1], [1], 4, 0, [], []⟩ rfl

/-- C5: the training loop applies the step exactly 200 times with no
early exit, so after a full run both history buffers hold exactly 200
entries, each in iteration order: the loss history lists the loss of each
iteration computed from that iteration's estimate, and the parameter
history lists the value each iteration records from that iteration's
estimate. -/
theorem loop_runs_exactly_200_iterations (x : List ℝ) :
    (programRun x).loss_history.length = 200 ∧
    (programRun x).exp_history.length = 200 ∧
    (programRun x).loss_history =
      (List.range 200).map
        (fun i =>
          rmse (forward x target_exp)
            (forward x ((run (initState x) i).exp_hat))) ∧
    (programRun x).exp_history =
      (List.range 200).map
        (fun i => (forward x ((run (initState x) i).exp_hat)).headI) := by
  refine ⟨?_, ?_, ?_, ?_⟩
  · rw [programRun, run_loss_history]; simp [initState]
  · rw [programRun, run_exp_history]; simp [initState]
  · rw [programRun, run_loss_history]; rfl
  · rw [programRun, run_exp_history]; rfl

/-- C6: the sample set and the target set are fixed before the loop
(`y = forward x target_exp` computed once) and are unchanged by any number
of loop iterations. -/
theorem samples_and_targets_immutable (x : List ℝ) (k : ℕ) :
    (run (initState x) k).x = x ∧
    (run (initState x) k).y = forward x target_exp :=
  ⟨run_x (initState x) k, run_y (initState x) k⟩

/-- C8: when the `n = 100` raw pseudo-random draws all lie in `[0, 1)`,
the generated sample set has 100 elements, every sample lies in `[0, 10)`
(in particular is non-negative), and the real power of any sample by any
exponent is defined and non-negative. -/
theorem samples_in_unit_range_scaled (r : List ℝ) (hlen : r.length = n)
    (hr : ∀ a ∈ r, 0 ≤ a ∧ a < 1) :
    (genX r).length = 100 ∧ (∀ b ∈ genX r, 0 ≤ b ∧ b < 10) ∧
    (∀ b ∈ genX r, ∀ e : ℝ, 0 ≤ b ^ e) := by
  refine ⟨?_, ?_, ?_⟩
  · rw [genX, List.length_map, hlen]; rfl
  · intro b hb
    rcases List.mem_map.mp hb with ⟨a, ha, rfl⟩
    rcases hr a ha with ⟨h0, h1⟩
    exact ⟨mul_nonneg h0 (by norm_num), by nlinarith⟩
  · intro b hb e
    rcases List.mem_map.mp hb with ⟨a, ha, rfl⟩
    exact Real.rpow_nonneg (mul_nonneg (hr a ha).1 (by norm_num)) e

/-- Witness for C8 at the concrete draw list of one hundred zeros. -/
theorem samples_in_unit_range_scaled_witness :
    (genX (List.replicate 100 (0:ℝ))).length = 100 ∧
    (∀ b ∈ genX (List.replicate 100 (0:ℝ)), 0 ≤ b ∧ b < 10) ∧
    (∀ b ∈ genX (List.replicate 100 (0:ℝ)), ∀ e : ℝ, 0 ≤ b ^ e) :=
  samples_in_unit_range_scaled _ (by simp [n])
    (by
      intro a ha
      rw [List.eq_of_mem_replicate ha]
      norm_num)

/-- C9: the sample generator is a deterministic function of the seed, and
two runs of the whole program from equal seeds produce identical loss
histories, parameter histories and final estimates. -/
theorem same_seed_same_run (rand : ℕ → ℕ → List ℝ) (s1 s2 : ℕ)
    (h : s1 = s2) :
    genSamples rand s1 = genSamples rand s2 ∧
    (programRun (genSamples rand s1)).loss_history =
      (programRun (genSamples rand s2)).loss_history ∧
    (programRun (genSamples rand s1)).exp_history =
      (programRun (genSamples rand s2)).exp_history ∧
    (programRun (genSamples rand s1)).exp_hat =
      (programRun (genSamples rand s2)).exp_hat := by
  subst h
  exact ⟨rfl, rfl, rfl, rfl⟩

/-- Witness for C9 at a concrete generator function and seed 0. -/
theorem same_seed_same_run_witness :
    genSamples (fun _ k => List.replicate k 0) 0 =
      genSamples (fun _ k => List.replicate k 0) 0 ∧
    (programRun (genSamples (fun _ k => List.replicate k 0) 0)).loss_history =
      (programRun (genSamples (fun _ k => List.replicate k 0) 0)).loss_history ∧
    (programRun (genSamples (fun _ k => List.replicate k 0) 0)).exp_history =
      (programRun (genSamples (fun _ k => List.replicate k 0) 0)).exp_history ∧
    (programRun (genSamples (fun _ k => List.replicate k 0) 0)).exp_hat =
      (programRun (genSamples (fun _ k => List.replicate k 0) 0)).exp_hat :=
  same_seed_same_run (fun _ k => List.replicate k 0) 0 0 rfl

end FindExp
